import Mathlib

/-!
# Verification of the vercade conversational-agent core

Shallow embedding of the repository's scheduling and tool-calling core
(`src/friendbot/agent.py`, `src/friendbot/trigger.py`,
`src/friendbot/message.py`, `src/friendbot/social_media.py`,
`src/friendbot/__init__.py`, `src/vercade/__init__.py`), together with
theorems settling the frozen claims about it.

Conventions of the embedding:
* Python exceptions are made explicit with the `Except` monad; a function
  that can raise returns `Except PyExc α`.
* Python numbers appearing in JSON payloads and configuration values are
  modelled as exact rationals (`ℚ`).  The claims under consideration only
  involve values such as 300, 900, 3600 and 7200 that IEEE doubles
  represent exactly, so this abstraction is faithful on every input the
  theorems touch.
* `asyncio` cooperative concurrency is modelled by the single-threaded
  event-loop abstraction the runtime guarantees: state is mutated only
  between suspension points, and each handler is embedded as the ordered
  sequence of primitive effects it performs.
-/

namespace Vercade

/-! ## Python exceptions -/

/-- The Python exception classes that the embedded code can raise or
catch: `json.JSONDecodeError`, `KeyError`, `TypeError`, `AttributeError`
and `ValueError`. -/
inductive PyExc where
  | jsonDecodeError : PyExc
  | keyError : String → PyExc
  | typeError : String → PyExc
  | attributeError : String → PyExc
  | valueError : String → PyExc
deriving DecidableEq, Repr

/-! ## JSON values and `json.loads`

`json.loads` is the standard-library JSON decoder used by
`Agent._parse_input` (`src/friendbot/agent.py:79-83`).  We model JSON
values with exact rational numbers (CPython parses to `int`/`float`; all
inputs relevant to the claims are exactly representable) and model the
decoder as a recursive-descent function.  CPython additionally accepts
the non-standard literals `NaN`, `Infinity` and `-Infinity`; they are
kept as dedicated constructors so that the model does not misclassify
such inputs as decode failures.  Objects are decoded into a key/value
list with the later of two duplicate keys overwriting the earlier one,
exactly as building a Python `dict` does. -/

/-- An exact decimal number `m * 10 ^ e`.  Python's `int` and `float`
values arising from decimal literals are embedded in this form; keeping
the mantissa/exponent pair unreduced (instead of a normalized `ℚ`) keeps
every definition kernel-computable, and `Dec.val` gives the denoted
rational when a theorem speaks about the numeric value. -/
structure Dec where
  m : ℤ
  e : ℤ
deriving DecidableEq, Repr

/-- The rational number denoted by a `Dec`. -/
def Dec.val (d : Dec) : ℚ :=
  (d.m : ℚ) * (10 : ℚ) ^ d.e

/-- A decoded JSON value (the result of `json.loads`). -/
inductive Json where
  | null : Json
  | bool : Bool → Json
  | num : Dec → Json
  | nanLit : Json
  | infLit : Json
  | negInfLit : Json
  | str : String → Json
  | arr : List Json → Json
  | obj : List (String × Json) → Json

/-- JSON whitespace characters skipped by the decoder. -/
def isJsonWs (c : Char) : Bool :=
  c = ' ' ∨ c = '\t' ∨ c = '\n' ∨ c = '\r'

/-- Skip JSON whitespace. -/
def skipWs (cs : List Char) : List Char :=
  cs.dropWhile isJsonWs

/-- Numeric value of a decimal digit character. -/
def digitVal (c : Char) : Nat :=
  c.toNat - 48

/-- Natural number denoted by a list of decimal digits. -/
def digitsToNat (ds : List Char) : Nat :=
  ds.foldl (fun n c => n * 10 + digitVal c) 0

/-- Value of a hexadecimal digit character (for `\uXXXX` escapes). -/
def hexVal (c : Char) : Option Nat :=
  if '0' ≤ c ∧ c ≤ '9' then some (c.toNat - 48)
  else if 'a' ≤ c ∧ c ≤ 'f' then some (c.toNat - 87)
  else if 'A' ≤ c ∧ c ≤ 'F' then some (c.toNat - 55)
  else none

/-- Decode the four hex digits of a `\uXXXX` escape. -/
def hex4 (a b c d : Char) : Option Nat :=
  match hexVal a, hexVal b, hexVal c, hexVal d with
  | some x, some y, some z, some w => some (((x * 16 + y) * 16 + z) * 16 + w)
  | _, _, _, _ => none

/-- Decode the body of a JSON string literal (the opening quote already
consumed).  Returns the decoded characters and the remaining input.
Unescaped control characters and invalid escapes are decode errors, as
in CPython's strict mode.  `\uXXXX` escapes are decoded to the scalar
value of the four hex digits (surrogate pairing is not modelled; no
claim involves such inputs). -/
def jsonStringBody : List Char → Option (List Char × List Char)
  | [] => none
  | '"' :: rest => some ([], rest)
  | '\\' :: esc =>
    match esc with
    | '"' :: rest => (jsonStringBody rest).map (fun p => ('"' :: p.1, p.2))
    | '\\' :: rest => (jsonStringBody rest).map (fun p => ('\\' :: p.1, p.2))
    | '/' :: rest => (jsonStringBody rest).map (fun p => ('/' :: p.1, p.2))
    | 'b' :: rest => (jsonStringBody rest).map (fun p => ('\x08' :: p.1, p.2))
    | 'f' :: rest => (jsonStringBody rest).map (fun p => ('\x0c' :: p.1, p.2))
    | 'n' :: rest => (jsonStringBody rest).map (fun p => ('\n' :: p.1, p.2))
    | 'r' :: rest => (jsonStringBody rest).map (fun p => ('\r' :: p.1, p.2))
    | 't' :: rest => (jsonStringBody rest).map (fun p => ('\t' :: p.1, p.2))
    | 'u' :: a :: b :: c :: d :: rest =>
      match hex4 a b c d with
      | some n =>
        if h : n.isValidChar then
          (jsonStringBody rest).map (fun p => (Char.ofNatAux n h :: p.1, p.2))
        else none
      | none => none
    | _ => none
  | c :: rest =>
    if c.toNat < 32 then none
    else (jsonStringBody rest).map (fun p => (c :: p.1, p.2))

/-- Decode an exponent marker (`e` or `E`, optional sign, digits) if one
is present; when the input does not start with an exponent marker, the
exponent is 0 and the input is left untouched. -/
def jsonExpPart : List Char → Option (ℤ × List Char)
  | 'e' :: rest =>
    let (sgn, rest') :=
      match rest with
      | '+' :: r => ((1 : ℤ), r)
      | '-' :: r => ((-1 : ℤ), r)
      | r => ((1 : ℤ), r)
    let ds := rest'.takeWhile Char.isDigit
    if ds.isEmpty then none
    else some (sgn * digitsToNat ds, rest'.dropWhile Char.isDigit)
  | 'E' :: rest =>
    let (sgn, rest') :=
      match rest with
      | '+' :: r => ((1 : ℤ), r)
      | '-' :: r => ((-1 : ℤ), r)
      | r => ((1 : ℤ), r)
    let ds := rest'.takeWhile Char.isDigit
    if ds.isEmpty then none
    else some (sgn * digitsToNat ds, rest'.dropWhile Char.isDigit)
  | cs => some (0, cs)

/-- Decode a JSON number (grammar `-? int frac? exp?` with
`int = 0 | [1-9][0-9]*`), returning its exact decimal value: integer and
fraction digits form the mantissa and the fraction length is subtracted
from the exponent. -/
def jsonNumber (cs : List Char) : Option (Dec × List Char) :=
  let (neg, cs₁) :=
    match cs with
    | '-' :: r => (true, r)
    | r => (false, r)
  let ds := cs₁.takeWhile Char.isDigit
  let rest := cs₁.dropWhile Char.isDigit
  if ds.isEmpty then none
  else if ds.length > 1 ∧ ds.headD '0' = '0' then none
  else
    let (mant, fracLen, rest₂) :=
      match rest with
      | '.' :: r =>
        let fs := r.takeWhile Char.isDigit
        if fs.isEmpty then (none, 0, rest)
        else
          (some (digitsToNat (ds ++ fs)), fs.length, r.dropWhile Char.isDigit)
      | _ => (some (digitsToNat ds), 0, rest)
    match mant with
    | none => none
    | some m =>
      match jsonExpPart rest₂ with
      | none => none
      | some (e, rest₃) =>
        some (⟨if neg then -(m : ℤ) else (m : ℤ), e - fracLen⟩, rest₃)

/-- Insert a binding into a key/value list with Python `dict` update
semantics: an existing key keeps its position and gets the new value, a
new key is appended.  (`jsonMembers` uses it right-to-left, which gives
the standard last-duplicate-wins behaviour of `json.loads`.) -/
def dictInsert : List (String × Json) → String → Json → List (String × Json)
  | [], k, v => [(k, v)]
  | p :: rest, k, v =>
    if p.1 = k then (k, v) :: rest else p :: dictInsert rest k v

mutual

/-- Decode one JSON value.  `fuel` bounds the recursion depth (CPython
enforces a recursion limit; inputs deep enough to exhaust the fuel are
treated as decode failures, an abstraction of the interpreter's
`RecursionError` which is outside this embedding's scope — no claim
involves such inputs). -/
def jsonValue : Nat → List Char → Option (Json × List Char)
  | 0, _ => none
  | Nat.succ fuel, cs =>
    match skipWs cs with
    | 'n' :: 'u' :: 'l' :: 'l' :: rest => some (.null, rest)
    | 't' :: 'r' :: 'u' :: 'e' :: rest => some (.bool true, rest)
    | 'f' :: 'a' :: 'l' :: 's' :: 'e' :: rest => some (.bool false, rest)
    | 'N' :: 'a' :: 'N' :: rest => some (.nanLit, rest)
    | 'I' :: 'n' :: 'f' :: 'i' :: 'n' :: 'i' :: 't' :: 'y' :: rest =>
      some (.infLit, rest)
    | '-' :: 'I' :: 'n' :: 'f' :: 'i' :: 'n' :: 'i' :: 't' :: 'y' :: rest =>
      some (.negInfLit, rest)
    | '"' :: rest =>
      (jsonStringBody rest).map (fun p => (.str (String.mk p.1), p.2))
    | '[' :: rest =>
      (match skipWs rest with
       | ']' :: rest' => some (.arr [], rest')
       | cs' => (jsonElems fuel cs').map (fun p => (.arr p.1, p.2)))
    | '{' :: rest =>
      (match skipWs rest with
       | '}' :: rest' => some (.obj [], rest')
       | cs' => (jsonMembers fuel cs' []).map (fun p => (.obj p.1, p.2)))
    | cs' => (jsonNumber cs').map (fun p => (.num p.1, p.2))

/-- Decode the comma-separated elements of a JSON array up to and
including the closing bracket. -/
def jsonElems : Nat → List Char → Option (List Json × List Char)
  | 0, _ => none
  | Nat.succ fuel, cs =>
    match jsonValue fuel cs with
    | none => none
    | some (v, rest) =>
      match skipWs rest with
      | ',' :: rest' =>
        (jsonElems fuel rest').map (fun p => (v :: p.1, p.2))
      | ']' :: rest' => some ([v], rest')
      | _ => none

/-- Decode the comma-separated members of a JSON object up to and
including the closing brace, inserting each member in order into the
accumulated `dict` (so a duplicate key overwrites the earlier value and
keeps its original position, as assignment into a Python `dict` does). -/
def jsonMembers : Nat → List Char → List (String × Json) →
    Option (List (String × Json) × List Char)
  | 0, _, _ => none
  | Nat.succ fuel, cs, acc =>
    match skipWs cs with
    | '"' :: rest =>
      match jsonStringBody rest with
      | none => none
      | some (key, rest₁) =>
        match skipWs rest₁ with
        | ':' :: rest₂ =>
          match jsonValue fuel rest₂ with
          | none => none
          | some (v, rest₃) =>
            match skipWs rest₃ with
            | ',' :: rest₄ =>
              jsonMembers fuel rest₄ (dictInsert acc (String.mk key) v)
            | '}' :: rest₄ => some (dictInsert acc (String.mk key) v, rest₄)
            | _ => none
        | _ => none
    | _ => none

end

/-- `json.loads`: decode a complete JSON document; trailing whitespace is
allowed, any other trailing input is a decode error.  The fuel
`2 * length + 2` strictly dominates the recursion depth reachable on an
input of this length. -/
def jsonLoads? (s : String) : Option Json :=
  match jsonValue (2 * s.length + 2) s.data with
  | none => none
  | some (v, rest) => if skipWs rest = [] then some v else none

/-! ## `Agent._parse_input` (`src/friendbot/agent.py:79-83`) -/

/-- `Agent._parse_input`: try `json.loads` on the raw argument string;
on a decode failure return the wrapped object `{"content": input}`. -/
def parse_input (input : String) : Json :=
  match jsonLoads? input with
  | some v => v
  | none => .obj [("content", .str input)]

/-- `json.loads` with its exception made explicit: a decode failure
raises `json.JSONDecodeError`. -/
def json_loads (s : String) : Except PyExc Json :=
  match jsonLoads? s with
  | some v => .ok v
  | none => .error .jsonDecodeError

/-- `Agent._parse_input` with the Python exception flow explicit: the
`try`/`except json.JSONDecodeError` handler catches exactly that
exception (anything else would propagate through the `.error`
branch). -/
def parse_input_exc (input : String) : Except PyExc Json :=
  match json_loads input with
  | .ok v => .ok v
  | .error e =>
    if e = .jsonDecodeError then .ok (.obj [("content", .str input)])
    else .error e

/-! ## Python operations on decoded JSON values -/

/-- First-match lookup in a key/value list.  `jsonLoads?` and the
`{"content": input}` wrap both produce lists with pairwise-distinct
keys, so this agrees with Python `dict` lookup on every value the
embedded code handles. -/
def dictGet? : List (String × Json) → String → Option Json
  | [], _ => none
  | p :: rest, k => if p.1 = k then some p.2 else dictGet? rest k

/-- Python truthiness of a decoded JSON value (`if not x`):
`None`, `False`, numeric zero, the empty string, the empty list and the
empty dict are falsy; everything else (including `nan` and the
infinities) is truthy. -/
def Json.truthy : Json → Bool
  | .null => false
  | .bool b => b
  | .num d => d.m != 0
  | .nanLit => true
  | .infLit => true
  | .negInfLit => true
  | .str s => s != ""
  | .arr xs => !xs.isEmpty
  | .obj fs => !fs.isEmpty

/-- `x[k]` on a decoded JSON value: `dict` lookup raising `KeyError`
when the key is missing; subscripting any non-`dict` decoded value with
a string key raises `TypeError`. -/
def Json.getItem : Json → String → Except PyExc Json
  | .obj fields, k =>
    match dictGet? fields k with
    | some v => .ok v
    | none => .error (.keyError k)
  | _, k => .error (.typeError ("value is not subscriptable with string key " ++ k))

/-- `x.get(k)` on a decoded JSON value: defined for `dict` values only
(any other decoded value has no `get` attribute, raising
`AttributeError`); a missing key yields Python `None`, here `none`. -/
def Json.dictGet : Json → String → Except PyExc (Option Json)
  | .obj fields, k => .ok (dictGet? fields k)
  | _, _ => .error (.attributeError "object has no attribute get")

/-- Truthiness of a `x.get(k)` result: `None` (missing key) is falsy. -/
def optTruthy : Option Json → Bool
  | none => false
  | some j => j.truthy

/-! ## Built-in tool handlers (`src/friendbot/agent.py`) -/

/-- `Agent._clean_channel` (`src/friendbot/agent.py:100-103`): strip one
leading `#` from a channel name. -/
def clean_channel (channel : String) : String :=
  if channel.startsWith "#" then channel.drop 1 else channel

/-- `Agent._clean_channel` applied to an arbitrary decoded JSON value,
as `_send_message` does with `input.get("channel")`: `str.startswith`
exists only on strings; calling it on any other decoded value raises
`AttributeError`. -/
def clean_channel_json : Json → Except PyExc Json
  | .str s => .ok (.str (clean_channel s))
  | _ => .error (.attributeError "object has no attribute startswith")

/-- The collaborators `Agent._mcp_tool` interacts with:
whether an MCP client was provided, and the outcome of
`mcp_client.call_tool` (`.ok` carries the `text` of each returned
content block; `.error` carries the text of a raised exception,
transport failures included). -/
structure McpEnv where
  hasClient : Bool
  callTool : String → Json → Except String (List String)

/-- `Agent._mcp_tool` (`src/friendbot/agent.py:69-77`): parse the
arguments, call the MCP tool, catch any exception from the call and
return it as an error string, and otherwise join the block texts. -/
def mcp_tool (env : McpEnv) (toolName : String) (input : String) :
    Except PyExc String :=
  if ¬ env.hasClient then .error (.valueError "No MCP client provided")
  else
    match env.callTool toolName (parse_input input) with
    | .error e => .ok ("Error calling tool " ++ toolName ++ ": " ++ e)
    | .ok blocks => .ok (String.intercalate "\n" blocks)

/-- The value the call site of `_send_message` attempts to build with
`Message(content=content, author=self.name)`
(`src/friendbot/agent.py:151`) and would hand to `social_media.send`.
In this source the construction never completes (see `send_message`
below), so no such value reaches the platform. -/
structure SentMessage where
  content : Json
  author : String

/-- The collaborator `Agent._send_message` interacts with: the agent's
name and the outcome of `social_media.send` (`.error` carries the text
of a raised exception).  In this source the `send` call site is
unreachable (see `send_message`), so the field is never consulted. -/
structure SendEnv where
  agentName : String
  send : SentMessage → Except String Unit

/-- `Agent._send_message` (`src/friendbot/agent.py:139-158`): parse the
arguments; read `input["content"]` (a missing key raises `KeyError`);
validate `server`, `channel` and `content`, answering a textual error
for a falsy value; then construct the outgoing message.
`agent.py` imports `Message` from `friendbot/social_media.py`
(agent.py:12), whose `__init__` (social_media.py:42-49) requires a
`created_at` argument; the keyword call
`Message(content=content, author=self.name)` at agent.py:151 omits it,
so the construction raises `TypeError` on every validated input —
before the `try` around `social_media.send`, which (together with the
`Failed to send message: ...` recovery and the `Message sent` reply) is
dead code in this source. -/
def send_message (_env : SendEnv) (input : String) : Except PyExc String := do
  let inp := parse_input input
  let content ← inp.getItem "content"
  let server ← inp.dictGet "server"
  if ¬ optTruthy server then
    return "server must be a non-empty string"
  let channel ← inp.dictGet "channel"
  if ¬ optTruthy channel then
    return "channel must be a non-empty string"
  let _ ← clean_channel_json (channel.getD .null)
  if ¬ content.truthy then
    return "content must be a non-empty string"
  .error (.typeError
    "Message.__init__ missing 1 required positional argument: created_at")

/-! ## Tool dispatch and the reasoning loop (`src/friendbot/agent.py:406-507`) -/

/-- The `function` payload of a LiteLLM tool call. -/
structure ToolFunction where
  name : String
  arguments : String
deriving DecidableEq, Repr

/-- One tool call returned by the model
(`ChatCompletionMessageToolCall`). -/
structure ToolCall where
  id : String
  function : ToolFunction
deriving DecidableEq, Repr

/-- One entry of `chat_history`. -/
inductive ChatEntry where
  | system : String → ChatEntry
  | user : String → ChatEntry
  | assistant : String → List ToolCall → ChatEntry
  | tool : String → String → String → ChatEntry
deriving DecidableEq, Repr

/-- The `functions` dispatch table built by `Agent.__call__`
(`src/friendbot/agent.py:438-460`), abstracted as a partial map from
tool name to handler; a handler takes the raw argument string and
either returns a result string or raises. -/
def Functions : Type :=
  String → Option (String → Except PyExc String)

/-- `Agent._run_tool` (`src/friendbot/agent.py:406-428`): a tool name
absent from the dispatch table raises `ValueError`; otherwise the
handler is invoked on the raw arguments and its result is wrapped as a
tool-role history entry tagged with the originating call's `id` and
tool name.  An exception raised by the handler propagates. -/
def run_tool (functions : Functions) (tc : ToolCall) : Except PyExc ChatEntry :=
  match functions tc.function.name with
  | none => .error (.valueError ("Unknown tool: " ++ tc.function.name))
  | some f =>
    match f tc.function.arguments with
    | .error e => .error e
    | .ok result => .ok (.tool tc.id tc.function.name result)

/-- `asyncio.gather` over the tool-call batch of one round
(`src/friendbot/agent.py:496-501`): every handler of the batch is
dispatched, the round completes as a unit once all have finished, the
results are collected in call order, and a raised exception makes the
whole batch fail. -/
def gatherTools (functions : Functions) : List ToolCall → Except PyExc (List ChatEntry)
  | [] => .ok []
  | tc :: tcs =>
    match run_tool functions tc with
    | .error e => .error e
    | .ok entry =>
      match gatherTools functions tcs with
      | .error e => .error e
      | .ok entries => .ok (entry :: entries)

/-- One message returned by the chat-completion collaborator:
`response.content` and `response.tool_calls`. -/
structure ModelResponse where
  content : String
  tool_calls : List ToolCall
deriving DecidableEq, Repr

/-- One round of the reasoning loop when the response carries tool
calls (`src/friendbot/agent.py:496-506`): gather all tool results, then
append the assistant response followed by the tool results to the
history (`chat_history += [response, *tool_results]`). -/
def round_step (functions : Functions) (hist : List ChatEntry)
    (r : ModelResponse) : Except PyExc (List ChatEntry) :=
  match gatherTools functions r.tool_calls with
  | .error e => .error e
  | .ok results => .ok (hist ++ .assistant r.content r.tool_calls :: results)

/-- How one run of `Agent.__call__`'s `while True` loop
(`src/friendbot/agent.py:479-506`) ends. -/
inductive RunOutcome where
  | protocolError : String → RunOutcome
  | completed : List ChatEntry → RunOutcome
  | dispatchError : PyExc → RunOutcome
  | exhausted : List ChatEntry → RunOutcome
deriving DecidableEq, Repr

/-- The `while True` loop of `Agent.__call__`, driven by the (finite
prefix of the) stream of model responses; `ranTools` embeds the
`ran_tools` flag.  A response with no tool calls raises
`ValueError("No tools were called...")` when `ran_tools` is still
false and otherwise breaks out of the loop; a response with tool calls
runs its batch (an exception from a handler propagates and aborts the
run) and continues with the extended history.  `exhausted` marks the
model-response stream running out, at which point the real loop would
issue a further completion request. -/
def agent_loop (functions : Functions) :
    List ModelResponse → List ChatEntry → Bool → RunOutcome
  | [], hist, _ => .exhausted hist
  | r :: rest, hist, ranTools =>
    if r.tool_calls.isEmpty then
      if ranTools then .completed hist else .protocolError r.content
    else
      match round_step functions hist r with
      | .error e => .dispatchError e
      | .ok hist' => agent_loop functions rest hist' true

/-! ## Message values

Two `Message` classes coexist in the source: the minimal one of
`src/friendbot/message.py` and the richer one of
`src/friendbot/social_media.py` (the class `agent.py` and `trigger.py`
import). -/

/-- `friendbot/message.py`'s `Message`. -/
structure MessagePy where
  content : String
  author : Option String
deriving DecidableEq, Repr

/-- `Message.__init__` of `src/friendbot/message.py:11-17`: an empty
`content` raises `ValueError`. -/
def messagePyInit (content : String) (author : Option String) :
    Except PyExc MessagePy :=
  if content = "" then .error (.valueError "content must be a non-empty string")
  else .ok ⟨content, author⟩

/-- Python's `\w` character class restricted to ASCII (letters, digits
and underscore; the embedded contents under consideration are ASCII). -/
def isWordChar (c : Char) : Bool :=
  c.isAlphanum || c = '_'

/-- `re.findall(r"@(\w+)", content)`: scan left to right for
non-overlapping matches of `@` followed by one or more word characters,
collecting the captured words.  `some acc` is the in-progress reversed
word of a match whose `@` has been consumed. -/
def scanMentions : List Char → Option (List Char) → List String
  | [], none => []
  | [], some acc => if acc.isEmpty then [] else [String.mk acc.reverse]
  | c :: rest, none =>
    if c = '@' then scanMentions rest (some []) else scanMentions rest none
  | c :: rest, some acc =>
    if isWordChar c then scanMentions rest (some (c :: acc))
    else
      let tail :=
        if c = '@' then scanMentions rest (some []) else scanMentions rest none
      if acc.isEmpty then tail else String.mk acc.reverse :: tail

/-- The `_MENTION_REGEX.findall(content)` call of
`src/friendbot/social_media.py:53`. -/
def findMentions (content : String) : List String :=
  scanMentions content.data none

/-- An embed of `src/friendbot/social_media.py` (just a URL). -/
structure Embed where
  url : String
deriving DecidableEq, Repr

/-- A reaction of `src/friendbot/social_media.py` (emoji and user
names). -/
structure Reaction where
  emoji : String
  users : List String
deriving DecidableEq, Repr

/-- `friendbot/social_media.py`'s `Message`; `created_at` is abstracted
to an integer timestamp (the code never computes with it). -/
structure MessageSM where
  content : String
  author : String
  created_at : ℤ
  mentions : List String
  embeds : List Embed
  reactions : List Reaction
deriving DecidableEq, Repr

/-- `Message.__init__` of `src/friendbot/social_media.py:42-55`: store
the fields and derive `mentions` from `content` with the mention regex.
No emptiness check is performed on `content`. -/
def messageSMInit (content author : String) (created_at : ℤ)
    (embeds : List Embed) (reactions : List Reaction) : MessageSM :=
  ⟨content, author, created_at, findMentions content, embeds, reactions⟩

/-! ## The Trigger / Scheduler (`src/friendbot/trigger.py`)

The scheduler's state is the per-conversation task map
`_response_tasks` together with the set of tasks the event loop knows
about.  The nested `dict[server_id, dict[channel_id, Task]]` is
flattened to an association list keyed by the `(server id, channel id)`
pair; the inner-dict bookkeeping of `_remove_response_task` (deleting an
emptied inner dict) does not alter the key-to-task mapping, which is all
the embedded operations read.

`asyncio` is modelled by the single-threaded event-loop abstraction:
each handler is embedded as the ordered sequence of primitive effects
it performs, and state changes happen one primitive effect at a time.
Task cancellation is cooperative: `task.cancel()` requests
cancellation, `await task` returns (raising `CancelledError`, which
`read_message` swallows) only once the task has actually terminated,
and the task's done callback — registered at creation, hence run before
the awaiting coroutine resumes — fires at that point. -/

/-- A `ConversationKey`: the `(context.server.id, context.channel.id)`
pair `read_message` keys its task map by. -/
structure ConvKey where
  server : ℤ
  channel : ℤ
deriving DecidableEq, Repr

/-- Identifier of an `asyncio` task created by the trigger. -/
abbrev TaskId := ℕ

/-- Whether a task has reached a terminal state (`task.done()` covers
completion, cancellation and failure alike). -/
inductive TaskStatus where
  | active : TaskStatus
  | done : TaskStatus
deriving DecidableEq, Repr

/-- One task known to the event loop: its id, the conversation key it
was started for (`none` for idle tasks), and whether it has
terminated. -/
structure TaskRec where
  id : TaskId
  key : Option ConvKey
  status : TaskStatus
deriving DecidableEq, Repr

/-- The scheduler state: the `_response_tasks` map and the event loop's
tasks; `nextId` is the next fresh task identifier. -/
structure TriggerState where
  responseTasks : List (ConvKey × TaskId)
  tasks : List TaskRec
  nextId : TaskId
deriving DecidableEq, Repr

/-- Lookup in the flattened task map
(`self._response_tasks.get(server.id, {}).get(channel.id)`). -/
def lookupKey : List (ConvKey × TaskId) → ConvKey → Option TaskId
  | [], _ => none
  | p :: rest, k => if p.1 = k then some p.2 else lookupKey rest k

/-- Record a task under a key
(`self._response_tasks.setdefault(server.id, {})[channel.id] = task`):
overwrite an existing entry, else append. -/
def setKey : List (ConvKey × TaskId) → ConvKey → TaskId → List (ConvKey × TaskId)
  | [], k, t => [(k, t)]
  | p :: rest, k, t =>
    if p.1 = k then (k, t) :: rest else p :: setKey rest k t

/-- Delete a key's entry (`del self._response_tasks[server.id][channel.id]`). -/
def eraseKey : List (ConvKey × TaskId) → ConvKey → List (ConvKey × TaskId)
  | [], _ => []
  | p :: rest, k => if p.1 = k then rest else p :: eraseKey rest k

/-- Status of a task id in the event loop's task list. -/
def statusOf (tasks : List TaskRec) (t : TaskId) : Option TaskStatus :=
  match tasks.find? (fun r => r.id = t) with
  | some r => some r.status
  | none => none

/-- Mark a task as terminated. -/
def setDone (tasks : List TaskRec) (t : TaskId) : List TaskRec :=
  tasks.map (fun r => if r.id = t then { r with status := .done } else r)

/-- `Trigger._should_respond` (`src/friendbot/trigger.py:36-43`):
reject a message authored by the agent itself; reject a message whose
mention list is non-empty and does not include the agent; accept
otherwise. -/
def should_respond (agentName : String) (message : MessageSM) : Bool :=
  if message.author = agentName then false
  else if 0 < message.mentions.length ∧ agentName ∉ message.mentions then false
  else true

/-- `Trigger._remove_response_task` (`src/friendbot/trigger.py:81-87`):
return unchanged when no task is recorded for the key (the truthiness
guard — a `Task` object is always truthy, the `.get` default is
falsy `None`), else delete the key's entry.  The function receives only
the context; it never inspects which task's completion it is handling. -/
def remove_response_task (st : TriggerState) (k : ConvKey) : TriggerState :=
  match lookupKey st.responseTasks k with
  | none => st
  | some _ => { st with responseTasks := eraseKey st.responseTasks k }

/-- The completion hook `read_message` registers on each response task
(`src/friendbot/trigger.py:117-119`):
`lambda task, context=context: self._remove_response_task(context)` —
the fired task `t` is ignored, only the captured context is used. -/
def response_done_callback (st : TriggerState) (k : ConvKey) (_t : TaskId) :
    TriggerState :=
  remove_response_task st k

/-- The primitive effects performed by `Trigger.read_message`
(`src/friendbot/trigger.py:89-119`), in program order. -/
inductive TriggerEv where
  | cancelRequested : TaskId → TriggerEv
  | terminated : TaskId → TriggerEv
  | hookFired : ConvKey → TaskId → TriggerEv
  | awaitConfirmed : TaskId → TriggerEv
  | recordRemoved : ConvKey → TriggerEv
  | taskCreated : TaskId → ConvKey → TriggerEv
  | taskRecorded : ConvKey → TaskId → TriggerEv
deriving DecidableEq, Repr

/-- State effect of each primitive `read_message` effect:
`cancelRequested` only signals the task (state unchanged until it
terminates); `terminated` marks the task done; `hookFired` runs the
task's completion hook; `awaitConfirmed` is the `await task` returning
(with the `CancelledError` swallowed by the `except` handler — no state
change); `recordRemoved` is the explicit `_remove_response_task` call;
`taskCreated` registers the fresh active task with the event loop;
`taskRecorded` stores it in the task map. -/
def applyEv (st : TriggerState) : TriggerEv → TriggerState
  | .cancelRequested _ => st
  | .terminated t => { st with tasks := setDone st.tasks t }
  | .hookFired k t => response_done_callback st k t
  | .awaitConfirmed _ => st
  | .recordRemoved k => remove_response_task st k
  | .taskCreated t k =>
    { st with tasks := st.tasks ++ [⟨t, some k, .active⟩], nextId := t + 1 }
  | .taskRecorded k t => { st with responseTasks := setKey st.responseTasks k t }

/-- The ordered effects of one `Trigger.read_message` call
(`src/friendbot/trigger.py:89-119`), in that call's program order:
nothing for a rejected message; otherwise, when a prior task is
recorded for the key and is not done, cancel it, await its termination
(its done callback fires, then the await returns and the
`CancelledError` is swallowed) and remove its record — and only then
create and record the replacement task.

Scope of the model: this list is the effect order of one handler run
considered in isolation.  The rejected-message and the
recorded-task-already-done paths contain no `await` and run
synchronously in the source, so their atomic treatment is exact; in the
cancel path, `await task` (trigger.py:108) is a real suspension point,
so folding this list applies the call's effects without interference
from other handlers.  Concurrently dispatched `on_message` handlers and
stale done callbacks — which the event loop does interleave — are
modelled by composing `read_message` and `response_done_callback`
applications in any event-loop order; claim C1's counterexample below
composes such an interleaving. -/
def read_message_events (agentName : String) (st : TriggerState) (k : ConvKey)
    (message : MessageSM) : List TriggerEv :=
  if ¬ should_respond agentName message then []
  else
    (match lookupKey st.responseTasks k with
     | some t =>
       if statusOf st.tasks t = some .active then
         [.cancelRequested t, .terminated t, .hookFired k t,
          .awaitConfirmed t, .recordRemoved k]
       else []
     | none => []) ++
    [.taskCreated st.nextId k, .taskRecorded k st.nextId]

/-- `Trigger.read_message`: the state reached by performing one call's
primitive effects in order, together with the effect trace.  The fold
is interference-free, so this function denotes a single handler run
with nothing else scheduled in between; interleavings of several
handlers and pending completion hooks are expressed by composing
`read_message` and `response_done_callback` applications. -/
def read_message (agentName : String) (st : TriggerState) (k : ConvKey)
    (message : MessageSM) : TriggerState × List TriggerEv :=
  let evs := read_message_events agentName st k message
  (evs.foldl applyEv st, evs)

/-- No two distinct active tasks exist for the same conversation key —
the single-flight property of the scheduler. -/
def atMostOneActivePerKey (st : TriggerState) : Prop :=
  ∀ r₁ ∈ st.tasks, ∀ r₂ ∈ st.tasks,
    r₁.status = .active → r₂.status = .active →
    r₁.key ≠ none → r₁.key = r₂.key → r₁.id = r₂.id

/-- Well-formedness of the scheduler state, maintained by the embedded
operations: task ids are pairwise distinct and below `nextId`, map keys
are pairwise distinct, every map entry points at a task created for
that key, and every active keyed task is the task its key's map entry
records. -/
def SchedInv (st : TriggerState) : Prop :=
  (st.tasks.map TaskRec.id).Nodup ∧
  (∀ r ∈ st.tasks, r.id < st.nextId) ∧
  (st.responseTasks.map Prod.fst).Nodup ∧
  (∀ p ∈ st.responseTasks, ∃ r ∈ st.tasks, r.id = p.2 ∧ r.key = some p.1) ∧
  (∀ r ∈ st.tasks, r.status = .active → ∀ k ∈ r.key.toList,
    lookupKey st.responseTasks k = some r.id)

/-! ## Schedule-interval parsing

`_parse_schedule_interval_seconds` exists in two variants:
`src/friendbot/__init__.py:16-54` and `src/vercade/__init__.py:17-54`.
They are textually identical except for the environment-variable name in
the error message and the handling of an absent or empty value: the
friendbot variant answers the default `60.0 * 60.0` seconds, the
vercade variant answers `None` (disabled). -/

/-- Python string whitespace stripped by `str.strip()` (ASCII subset;
the configuration values under consideration are ASCII). -/
def isPyWs (c : Char) : Bool :=
  c = ' ' ∨ c = '\t' ∨ c = '\n' ∨ c = '\r' ∨ c = '\x0b' ∨ c = '\x0c'

/-- `str.strip()`. -/
def pyStrip (s : String) : String :=
  String.mk (((s.data.dropWhile isPyWs).reverse.dropWhile isPyWs).reverse)

/-- `str.lower()` (ASCII). -/
def pyLower (s : String) : String :=
  String.mk (s.data.map Char.toLower)

/-- A Python `float` value: finite (exact decimal), infinite or NaN. -/
inductive PyFloat where
  | finite : Dec → PyFloat
  | inf : PyFloat
  | negInf : PyFloat
  | nan : PyFloat
deriving DecidableEq, Repr

/-- The exponent suffix of a `float()` literal, which must reach the end
of the input: empty input means exponent 0; otherwise `e`, an optional
sign and at least one digit.  (The call sites lower-case their input
first, so only the lowercase marker is modelled.) -/
def pyExpPart : List Char → Option ℤ
  | [] => some 0
  | 'e' :: rest =>
    let (sgn, rest') :=
      match rest with
      | '+' :: r => ((1 : ℤ), r)
      | '-' :: r => ((-1 : ℤ), r)
      | r => ((1 : ℤ), r)
    let ds := rest'.takeWhile Char.isDigit
    if ds.isEmpty then none
    else if (rest'.dropWhile Char.isDigit).isEmpty then
      some (sgn * digitsToNat ds)
    else none
  | _ => none

/-- The unsigned numeric part of a `float()` literal:
`digits [. digits?] exp?` or `. digits exp?` (Python also accepts a
trailing dot as in `3.`).  Digit-group underscores are not modelled (no
value under consideration contains them). -/
def pyFloatMag (cs : List Char) : Option Dec :=
  let ds := cs.takeWhile Char.isDigit
  let rest := cs.dropWhile Char.isDigit
  match rest with
  | '.' :: r =>
    let fs := r.takeWhile Char.isDigit
    if ds.isEmpty ∧ fs.isEmpty then none
    else
      match pyExpPart (r.dropWhile Char.isDigit) with
      | none => none
      | some e => some ⟨(digitsToNat (ds ++ fs) : ℤ), e - fs.length⟩
  | _ =>
    if ds.isEmpty then none
    else
      match pyExpPart rest with
      | none => none
      | some e => some ⟨(digitsToNat ds : ℤ), e⟩

/-- Python's `float(str)` constructor on an already lower-cased string:
strip whitespace, take an optional sign, then one of `inf`, `infinity`,
`nan` or a numeric literal.  `none` models `float` raising
`ValueError`. -/
def pyFloatOfString? (s : String) : Option PyFloat :=
  let cs := (pyStrip s).data
  let (neg, cs₁) :=
    match cs with
    | '-' :: r => (true, r)
    | '+' :: r => (false, r)
    | r => (false, r)
  if cs₁ = "inf".data ∨ cs₁ = "infinity".data then
    some (if neg then .negInf else .inf)
  else if cs₁ = "nan".data then some .nan
  else (pyFloatMag cs₁).map (fun d => .finite (if neg then ⟨-d.m, d.e⟩ else d))

/-- `re.fullmatch(r"(\d+(?:\.\d*)?)([smh])", normalized)`: one or more
digits, an optional dot with further digits, and a final unit letter
`s`, `m` or `h` ending the string.  Returns the numeric group's value
and the unit. -/
def numUnitMatch? (s : String) : Option (Dec × Char) :=
  let cs := s.data
  let ds := cs.takeWhile Char.isDigit
  let rest := cs.dropWhile Char.isDigit
  if ds.isEmpty then none
  else
    let (mant, fracLen, rest₂) :=
      match rest with
      | '.' :: r =>
        let fs := r.takeWhile Char.isDigit
        (digitsToNat (ds ++ fs), fs.length, r.dropWhile Char.isDigit)
      | _ => (digitsToNat ds, 0, rest)
    match rest₂ with
    | [u] =>
      if u = 's' ∨ u = 'm' ∨ u = 'h' then
        some (⟨(mant : ℤ), -(fracLen : ℤ)⟩, u)
      else none
    | _ => none

/-- The documented disabling tokens
(`{"0", "off", "false", "disabled", "none", "no"}`). -/
def disableTokens : List String :=
  ["0", "off", "false", "disabled", "none", "no"]

/-- Seconds per unit letter (`s`, `m`, `h`). -/
def unitFactor (u : Char) : ℤ :=
  if u = 'm' then 60 else if u = 'h' then 3600 else 1

/-- The shared body of both `_parse_schedule_interval_seconds` variants,
applied to the normalized (stripped, lower-cased) value: a disabling
token answers `None`; then plain `float` parsing is tried; then the
number-with-unit regex, scaling by the unit; otherwise `ValueError` is
raised (its message names the variant's environment variable; the
final `raise` after the unit dispatch is unreachable because the regex
only matches `s`, `m` or `h`). -/
def parse_schedule_core (envVar : String) (normalized : String) :
    Except String (Option PyFloat) :=
  if normalized ∈ disableTokens then .ok none
  else
    match pyFloatOfString? normalized with
    | some f => .ok (some f)
    | none =>
      match numUnitMatch? normalized with
      | some (d, u) => .ok (some (.finite ⟨d.m * unitFactor u, d.e⟩))
      | none =>
        .error (envVar ++ " must be a number of seconds or end with s/m/h")

/-- `_parse_schedule_interval_seconds` of `src/friendbot/__init__.py:16-54`:
an absent or (after stripping) empty value answers the default
`60.0 * 60.0` seconds. -/
def parse_schedule_interval_friendbot (value : Option String) :
    Except String (Option PyFloat) :=
  match value with
  | none => .ok (some (.finite ⟨3600, 0⟩))
  | some v =>
    if pyStrip v = "" then .ok (some (.finite ⟨3600, 0⟩))
    else parse_schedule_core "FRIENDBOT_SCHEDULE_INTERVAL" (pyLower (pyStrip v))

/-- `_parse_schedule_interval_seconds` of `src/vercade/__init__.py:17-54`:
an absent or (after stripping) empty value answers `None` —
scheduling disabled. -/
def parse_schedule_interval_vercade (value : Option String) :
    Except String (Option PyFloat) :=
  match value with
  | none => .ok none
  | some v =>
    if pyStrip v = "" then .ok none
    else parse_schedule_core "VERCADE_SCHEDULE_INTERVAL" (pyLower (pyStrip v))

/-! ## Claims about argument parsing (C8, C10) -/

/-- C8: for every raw tool-argument string, `_parse_input` first
attempts `json.loads`; when the attempt succeeds the decoded value is
returned, and whenever it fails the result is exactly
`{"content": <the raw string>}` — in particular every bare (non-JSON)
string argument is normalized to that wrapped object. -/
theorem claim_C8_parse_input_wraps (s : String) :
    (∀ j, jsonLoads? s = some j → parse_input s = j) ∧
    (jsonLoads? s = none → parse_input s = .obj [("content", .str s)]) := by
  constructor
  · intro j hj
    simp [parse_input, hj]
  · intro hn
    simp [parse_input, hn]

/-- Witness for C8 at the bare string `"hello, world"` (not JSON) and
the JSON object `{"a": 1}`. -/
theorem claim_C8_parse_input_wraps_witness :
    jsonLoads? "hello, world" = none ∧
    parse_input "hello, world" = .obj [("content", .str "hello, world")] ∧
    jsonLoads? "\x7b\"a\": 1\x7d" = some (.obj [("a", .num ⟨1, 0⟩)]) ∧
    parse_input "\x7b\"a\": 1\x7d" = .obj [("a", .num ⟨1, 0⟩)] :=
  ⟨rfl, (claim_C8_parse_input_wraps "hello, world").2 rfl, rfl,
    (claim_C8_parse_input_wraps "\x7b\"a\": 1\x7d").1 _ rfl⟩

/-- C10: `_parse_input` is total on strings — with the exception flow
explicit, it never propagates an exception: every `json.JSONDecodeError`
raised by `json.loads` is caught by the wrapping branch, so the result
always agrees with the total function `parse_input`. -/
theorem claim_C10_parse_input_total (s : String) :
    parse_input_exc s = .ok (parse_input s) := by
  unfold parse_input_exc json_loads parse_input
  cases h : jsonLoads? s <;> simp

/-! ## Claim about Message construction (C9) -/

/-- Counterexample to C9: the `Message` of
`src/friendbot/social_media.py` (the class `agent.py` and `trigger.py`
import) performs no emptiness check — constructing it with empty
content succeeds and yields a `Message` whose `content` is the empty
string, so construction with empty content is not impossible. -/
theorem claim_C9_counterexample :
    messageSMInit "" "Bob" 0 [] [] =
      { content := "", author := "Bob", created_at := 0, mentions := [],
        embeds := [], reactions := [] } ∧
    (messageSMInit "" "Bob" 0 [] []).content = "" :=
  ⟨rfl, rfl⟩

/-- C9 as amended: the `Message` of `src/friendbot/message.py` rejects
empty content (`ValueError`), so every such `Message` has non-empty
content; the `Message` of `src/friendbot/social_media.py` stores its
`content` argument unchecked, so a `Message` with empty content can be
constructed there. -/
theorem claim_C9_amended (author : Option String) :
    messagePyInit "" author =
      .error (.valueError "content must be a non-empty string") ∧
    (∀ c m, messagePyInit c author = .ok m → m.content ≠ "") ∧
    (∀ c a t e r, (messageSMInit c a t e r).content = c) := by
  refine ⟨rfl, ?_, fun _ _ _ _ _ => rfl⟩
  intro c m hm
  unfold messagePyInit at hm
  split at hm
  · exact absurd hm (by simp)
  · cases hm
    simpa using by assumption

/-- Witness for C9's amended statement at concrete inputs. -/
theorem claim_C9_amended_witness :
    messagePyInit "" (some "Bob") =
      .error (.valueError "content must be a non-empty string") ∧
    (MessagePy.mk "hi" (some "Bob")).content ≠ "" ∧
    (messageSMInit "x" "Bob" 0 [] []).content = "x" :=
  ⟨(claim_C9_amended (some "Bob")).1,
    (claim_C9_amended (some "Bob")).2.1 "hi" ⟨"hi", some "Bob"⟩ rfl,
    (claim_C9_amended (some "Bob")).2.2 "x" "Bob" 0 [] []⟩

/-! ## Claim about schedule-interval parsing (C7) -/

/-- Counterexample to C7: the vercade variant of the parser maps an
absent value to `None` — scheduling disabled — not to the documented
default interval (3600 seconds), and likewise for the empty value. -/
theorem claim_C7_counterexample :
    parse_schedule_interval_vercade none = .ok none ∧
    parse_schedule_interval_vercade (some "") = .ok none ∧
    parse_schedule_interval_vercade none ≠
      .ok (some (.finite ⟨3600, 0⟩)) := by
  refine ⟨rfl, rfl, ?_⟩
  intro h
  simp [parse_schedule_interval_vercade] at h

/-- C7 as amended: both parser variants map `"300"` to 300 seconds,
`"15m"` to 900 seconds, `"2h"` to 7200 seconds, each disabling token to
disabled, and raise a configuration error on `"3x"`; but only the
friendbot variant maps an absent or empty value to the default 3600
seconds — the vercade variant maps an absent or empty value to
disabled. -/
theorem claim_C7_amended :
    (parse_schedule_interval_friendbot (some "300") =
      .ok (some (.finite ⟨300, 0⟩)) ∧ (Dec.mk 300 0).val = 300) ∧
    (parse_schedule_interval_friendbot (some "15m") =
      .ok (some (.finite ⟨900, 0⟩)) ∧ (Dec.mk 900 0).val = 900) ∧
    (parse_schedule_interval_friendbot (some "2h") =
      .ok (some (.finite ⟨7200, 0⟩)) ∧ (Dec.mk 7200 0).val = 7200) ∧
    (parse_schedule_interval_friendbot (some "0") = .ok none ∧
      parse_schedule_interval_friendbot (some "off") = .ok none ∧
      parse_schedule_interval_friendbot (some "false") = .ok none ∧
      parse_schedule_interval_friendbot (some "disabled") = .ok none ∧
      parse_schedule_interval_friendbot (some "none") = .ok none ∧
      parse_schedule_interval_friendbot (some "no") = .ok none) ∧
    (parse_schedule_interval_friendbot none =
      .ok (some (.finite ⟨3600, 0⟩)) ∧
      parse_schedule_interval_friendbot (some "") =
        .ok (some (.finite ⟨3600, 0⟩)) ∧ (Dec.mk 3600 0).val = 3600) ∧
    parse_schedule_interval_friendbot (some "3x") =
      .error "FRIENDBOT_SCHEDULE_INTERVAL must be a number of seconds or end with s/m/h" ∧
    (parse_schedule_interval_vercade (some "300") =
      .ok (some (.finite ⟨300, 0⟩)) ∧
      parse_schedule_interval_vercade (some "15m") =
        .ok (some (.finite ⟨900, 0⟩)) ∧
      parse_schedule_interval_vercade (some "2h") =
        .ok (some (.finite ⟨7200, 0⟩))) ∧
    (parse_schedule_interval_vercade (some "0") = .ok none ∧
      parse_schedule_interval_vercade (some "off") = .ok none ∧
      parse_schedule_interval_vercade (some "false") = .ok none ∧
      parse_schedule_interval_vercade (some "disabled") = .ok none ∧
      parse_schedule_interval_vercade (some "none") = .ok none ∧
      parse_schedule_interval_vercade (some "no") = .ok none) ∧
    (parse_schedule_interval_vercade none = .ok none ∧
      parse_schedule_interval_vercade (some "") = .ok none) ∧
    parse_schedule_interval_vercade (some "3x") =
      .error "VERCADE_SCHEDULE_INTERVAL must be a number of seconds or end with s/m/h" := by
  refine ⟨⟨rfl, ?_⟩, ⟨rfl, ?_⟩, ⟨rfl, ?_⟩, ⟨rfl, rfl, rfl, rfl, rfl, rfl⟩,
    ⟨rfl, rfl, ?_⟩, rfl, ⟨rfl, rfl, rfl⟩, ⟨rfl, rfl, rfl, rfl, rfl, rfl⟩,
    ⟨rfl, rfl⟩, rfl⟩ <;> norm_num [Dec.val]

/-! ## Claim about the eligibility filter (C6) -/

/-- C6: `_should_respond` rejects a message authored by the agent
itself; rejects a message whose mention list is non-empty and does not
contain the agent's name; accepts every other message; and
`read_message` performs nothing — no state change, no task started —
for a rejected message. -/
theorem claim_C6_should_respond
    (agentName : String) (m : MessageSM) :
    (m.author = agentName → should_respond agentName m = false) ∧
    (m.mentions ≠ [] → agentName ∉ m.mentions →
      should_respond agentName m = false) ∧
    (m.author ≠ agentName → (m.mentions = [] ∨ agentName ∈ m.mentions) →
      should_respond agentName m = true) ∧
    (∀ st k, should_respond agentName m = false →
      read_message agentName st k m = (st, [])) := by
  refine ⟨?_, ?_, ?_, ?_⟩
  · intro h
    simp [should_respond, h]
  · intro hne hnotin
    have hpos : 0 < m.mentions.length := by
      cases hm : m.mentions with
      | nil => exact absurd hm hne
      | cons a as => simp [hm]
    unfold should_respond
    split
    · rfl
    · rw [if_pos ⟨hpos, hnotin⟩]
  · intro hauthor hmention
    unfold should_respond
    rw [if_neg hauthor, if_neg]
    rintro ⟨hpos, hnotin⟩
    rcases hmention with hnil | hin
    · rw [hnil] at hpos
      exact absurd hpos (by simp)
    · exact hnotin hin
  · intro st k h
    simp [read_message, read_message_events, h]

/-- Witness for C6 at concrete messages: one authored by the agent, one
mentioning only someone else, one accepted, and the rejected one leaves
the scheduler state untouched. -/
theorem claim_C6_should_respond_witness :
    should_respond "Proctor" (messageSMInit "hi there" "Proctor" 0 [] []) =
      false ∧
    should_respond "Proctor" (messageSMInit "hey @Alice" "Bob" 0 [] []) =
      false ∧
    should_respond "Proctor" (messageSMInit "hello" "Bob" 0 [] []) = true ∧
    read_message "Proctor" ⟨[], [], 0⟩ ⟨1, 2⟩
      (messageSMInit "hi there" "Proctor" 0 [] []) = (⟨[], [], 0⟩, []) :=
  ⟨(claim_C6_should_respond "Proctor" _).1 rfl,
    (claim_C6_should_respond "Proctor" _).2.1 (by decide) (by decide),
    (claim_C6_should_respond "Proctor" _).2.2.1 (by decide) (Or.inl rfl),
    (claim_C6_should_respond "Proctor" _).2.2.2 ⟨[], [], 0⟩ ⟨1, 2⟩
      ((claim_C6_should_respond "Proctor" _).1 rfl)⟩

/-! ## Claims about the reasoning loop (C3, C4) -/

/-- A successful `gatherTools` batch produces exactly one result per
tool call, elementwise the successful `run_tool` of the corresponding
call. -/
theorem gatherTools_ok (functions : Functions) :
    ∀ (tcs : List ToolCall) (results : List ChatEntry),
      gatherTools functions tcs = .ok results →
      results.length = tcs.length ∧
      ∀ i (hi : i < tcs.length) (hi' : i < results.length),
        run_tool functions (tcs.get ⟨i, hi⟩) = .ok (results.get ⟨i, hi'⟩) := by
  intro tcs
  induction tcs with
  | nil =>
    intro results h
    cases h
    exact ⟨rfl, fun i hi => absurd hi (by simp)⟩
  | cons tc tcs ih =>
    intro results h
    unfold gatherTools at h
    cases hrun : run_tool functions tc with
    | error e => rw [hrun] at h; cases h
    | ok entry =>
      rw [hrun] at h
      cases hrest : gatherTools functions tcs with
      | error e => rw [hrest] at h; cases h
      | ok entries =>
        rw [hrest] at h
        cases h
        obtain ⟨hlen, hget⟩ := ih entries hrest
        refine ⟨by simpa using hlen, ?_⟩
        intro i hi hi'
        match i with
        | 0 => simpa using hrun
        | Nat.succ j =>
          simpa using hget j (by simpa using hi) (by simpa using hi')

/-- A successful `run_tool` result is a tool-role entry tagged with the
originating call's id and tool name. -/
theorem run_tool_ok_shape (functions : Functions) (tc : ToolCall)
    (entry : ChatEntry) (h : run_tool functions tc = .ok entry) :
    ∃ out, entry = .tool tc.id tc.function.name out := by
  cases hf : functions tc.function.name with
  | none => simp [run_tool, hf] at h
  | some f =>
    cases hr : f tc.function.arguments with
    | error e => simp [run_tool, hf, hr] at h
    | ok result =>
      simp [run_tool, hf, hr] at h
      exact ⟨result, h.symm⟩

/-- C3: a run whose very first model round returns no tool calls ends
with the protocol error (`ValueError("No tools were called...")`); a
run whose first round returns tool calls (all completing) and whose
next round returns none terminates normally; and normal completion
happens only at a round with zero tool calls that is preceded
exclusively by rounds with tool calls — at least one such round when
no tool has been dispatched yet. -/
theorem claim_C3_termination :
    (∀ (functions : Functions) rest hist r, r.tool_calls = [] →
      agent_loop functions (r :: rest) hist false = .protocolError r.content) ∧
    (∀ (functions : Functions) hist r₁ r₂ results, r₁.tool_calls ≠ [] →
      gatherTools functions r₁.tool_calls = .ok results → r₂.tool_calls = [] →
      agent_loop functions [r₁, r₂] hist false =
        .completed (hist ++ .assistant r₁.content r₁.tool_calls :: results)) ∧
    (∀ (functions : Functions) rs hist b h,
      agent_loop functions rs hist b = .completed h →
      ∃ k, ∃ hk : k < rs.length, (rs.get ⟨k, hk⟩).tool_calls = [] ∧
        (∀ j (hj : j < rs.length), j < k → (rs.get ⟨j, hj⟩).tool_calls ≠ []) ∧
        (b = false → 0 < k)) := by
  refine ⟨?_, ?_, ?_⟩
  · intro functions rest hist r hr
    simp [agent_loop, hr]
  · intro functions hist r₁ r₂ results h₁ hgather h₂
    simp only [agent_loop, List.isEmpty_iff, h₁, if_false, round_step, hgather,
      if_neg h₁]
    simp [agent_loop, h₂]
  · intro functions rs
    induction rs with
    | nil =>
      intro hist b h hrun
      simp [agent_loop] at hrun
    | cons r rest ih =>
      intro hist b h hrun
      unfold agent_loop at hrun
      by_cases hr : r.tool_calls.isEmpty
      · rw [if_pos hr] at hrun
        cases b with
        | false => simp at hrun
        | true =>
          refine ⟨0, by simp, by simpa using hr, ?_, by simp⟩
          intro j hj hj0
          exact absurd hj0 (by simp)
      · rw [if_neg hr] at hrun
        cases hstep : round_step functions hist r with
        | error e => rw [hstep] at hrun; cases hrun
        | ok hist' =>
          rw [hstep] at hrun
          obtain ⟨k, hk, hke, hkprev, -⟩ := ih hist' true h hrun
          refine ⟨k + 1, by simpa using Nat.succ_lt_succ hk, by simpa using hke,
            ?_, fun _ => Nat.succ_pos k⟩
          intro j hj hjk
          match j with
          | 0 =>
            simpa [List.isEmpty_iff] using hr
          | Nat.succ j' =>
            simpa using hkprev j' (by simpa using hj) (Nat.lt_of_succ_lt_succ hjk)

/-- Witness for C3: with a one-tool dispatch table, a first round with
no tool calls ends in the protocol error, and a round with one
completing tool call followed by an empty round completes normally. -/
theorem claim_C3_termination_witness :
    agent_loop
      (fun n => if n = "get_memories" then some (fun _ => .ok "[]") else none)
      [⟨"no tools", []⟩] [] false = .protocolError "no tools" ∧
    agent_loop
      (fun n => if n = "get_memories" then some (fun _ => .ok "[]") else none)
      [⟨"thinking", [⟨"call1", ⟨"get_memories", "\x7b\"query\": \"x\"\x7d"⟩⟩]⟩,
       ⟨"done", []⟩] [] false =
      .completed
        [.assistant "thinking" [⟨"call1", ⟨"get_memories", "\x7b\"query\": \"x\"\x7d"⟩⟩],
         .tool "call1" "get_memories" "[]"] :=
  ⟨claim_C3_termination.1 _ _ _ _ rfl,
    claim_C3_termination.2.1 _ []
      ⟨"thinking", [⟨"call1", ⟨"get_memories", "\x7b\"query\": \"x\"\x7d"⟩⟩]⟩
      ⟨"done", []⟩ [.tool "call1" "get_memories" "[]"] (by simp) rfl rfl⟩

/-- C4: in a round whose model response carries tool calls C1..Cn that
all complete, the batch completes as a unit and only then is the
history extended — by the assistant response followed by exactly n
tool-result entries, the i-th tagged with the i-th call's identifier
and tool name. -/
theorem claim_C4_round_batch (functions : Functions) (hist : List ChatEntry)
    (r : ModelResponse) (results : List ChatEntry)
    (hok : gatherTools functions r.tool_calls = .ok results) :
    round_step functions hist r =
      .ok (hist ++ .assistant r.content r.tool_calls :: results) ∧
    results.length = r.tool_calls.length ∧
    ∀ i (hi : i < r.tool_calls.length) (hi' : i < results.length),
      ∃ out, results.get ⟨i, hi'⟩ =
        .tool (r.tool_calls.get ⟨i, hi⟩).id
          (r.tool_calls.get ⟨i, hi⟩).function.name out := by
  obtain ⟨hlen, hget⟩ := gatherTools_ok functions r.tool_calls results hok
  refine ⟨by simp [round_step, hok], hlen, ?_⟩
  intro i hi hi'
  exact run_tool_ok_shape functions _ _ (hget i hi hi')

/-- Witness for C4: a two-call round; the history gains the assistant
entry plus two tool entries tagged `call1`/`call2` with their tool
names. -/
theorem claim_C4_round_batch_witness :
    round_step
      (fun n =>
        if n = "get_memories" then some (fun _ => .ok "[]")
        else if n = "list_servers" then some (fun _ => .ok "[\"s\"]")
        else none)
      [.system "id"]
      ⟨"c", [⟨"call1", ⟨"get_memories", "q"⟩⟩, ⟨"call2", ⟨"list_servers", ""⟩⟩]⟩ =
      .ok [.system "id",
        .assistant "c"
          [⟨"call1", ⟨"get_memories", "q"⟩⟩, ⟨"call2", ⟨"list_servers", ""⟩⟩],
        .tool "call1" "get_memories" "[]",
        .tool "call2" "list_servers" "[\"s\"]"] ∧
    ([ChatEntry.tool "call1" "get_memories" "[]",
      ChatEntry.tool "call2" "list_servers" "[\"s\"]"]).length = 2 :=
  ⟨(claim_C4_round_batch
      (fun n =>
        if n = "get_memories" then some (fun _ => .ok "[]")
        else if n = "list_servers" then some (fun _ => .ok "[\"s\"]")
        else none)
      [.system "id"]
      ⟨"c", [⟨"call1", ⟨"get_memories", "q"⟩⟩, ⟨"call2", ⟨"list_servers", ""⟩⟩]⟩
      [.tool "call1" "get_memories" "[]", .tool "call2" "list_servers" "[\"s\"]"]
      rfl).1, rfl⟩

/-! ## Claim about tool-failure recovery (C5) -/

/-- Counterexample to C5: a tool call to the catalogued `send_message`
handler whose argument object is missing the required `content` field
raises `KeyError("content")` inside the handler, and the exception
propagates out of `_run_tool` — tool dispatch does not recover it into
a textual error result, so such a failure aborts the invocation. -/
theorem claim_C5_counterexample :
    run_tool
      (fun n =>
        if n = "send_message" then
          some (send_message ⟨"Proctor", fun _ => .ok ()⟩)
        else none)
      ⟨"call1", ⟨"send_message",
        "\x7b\"server\": \"general\", \"channel\": \"#general\"\x7d"⟩⟩ =
      .error (.keyError "content") := rfl

/-- C5 as amended: an exception from `mcp_client.call_tool` is
recovered at the call site into the `Error calling tool ...` text, and
handler-level validation of a falsy `server`/`channel`/`content` is
answered as textual data; but an argument object missing a required
field raises `KeyError` inside `_send_message`, and every argument
object that passes the validations raises `TypeError` at the
`Message(content=..., author=...)` construction (the imported
`social_media.py` `Message` requires `created_at`), so the
`Failed to send message: ...` / `Message sent` recovery below it is
dead code — and `_run_tool` catches no handler exception, so both
exceptions propagate out of dispatch and abort the invocation. -/
theorem claim_C5_amended :
    (∀ (env : McpEnv) toolName input e, env.hasClient = true →
      env.callTool toolName (parse_input input) = .error e →
      mcp_tool env toolName input =
        .ok ("Error calling tool " ++ toolName ++ ": " ++ e)) ∧
    (∀ (env : SendEnv),
      send_message env "hello" = .ok "server must be a non-empty string") ∧
    (∀ (env : SendEnv) input,
      (parse_input input).getItem "content" = .error (.keyError "content") →
      send_message env input = .error (.keyError "content")) ∧
    (∀ (env : SendEnv),
      send_message env
        "\x7b\"server\": \"general\", \"channel\": \"#general\", \"content\": \"hi\"\x7d" =
        .error (.typeError
          "Message.__init__ missing 1 required positional argument: created_at")) ∧
    (∀ (functions : Functions) tc f e,
      functions tc.function.name = some f →
      f tc.function.arguments = .error e →
      run_tool functions tc = .error e) := by
  refine ⟨?_, ?_, ?_, ?_, ?_⟩
  · intro env toolName input e hc hcall
    simp [mcp_tool, hc, hcall]
  · intro env
    rfl
  · intro env input hget
    simp only [send_message, hget]
    rfl
  · intro env
    rfl
  · intro functions tc f e hf hcall
    simp [run_tool, hf, hcall]

/-- Witness for C5's amended statement: a failing MCP call is returned
as text, a bare-string argument is answered with the server validation
text, the missing-field `KeyError` propagates out of the handler, and a
fully validated argument object aborts with the construction
`TypeError`. -/
theorem claim_C5_amended_witness :
    mcp_tool ⟨true, fun _ _ => .error "boom"⟩ "fetch" "\x7b\x7d" =
      .ok ("Error calling tool " ++ "fetch" ++ ": " ++ "boom") ∧
    send_message ⟨"Proctor", fun _ => .ok ()⟩ "hello" =
      .ok "server must be a non-empty string" ∧
    send_message ⟨"Proctor", fun _ => .ok ()⟩
      "\x7b\"server\": \"general\", \"channel\": \"#general\"\x7d" =
      .error (.keyError "content") ∧
    send_message ⟨"Proctor", fun _ => .ok ()⟩
      "\x7b\"server\": \"general\", \"channel\": \"#general\", \"content\": \"hi\"\x7d" =
      .error (.typeError
        "Message.__init__ missing 1 required positional argument: created_at") :=
  ⟨claim_C5_amended.1 ⟨true, fun _ _ => .error "boom"⟩ "fetch" "\x7b\x7d" "boom"
      rfl rfl,
    claim_C5_amended.2.1 ⟨"Proctor", fun _ => .ok ()⟩,
    claim_C5_amended.2.2.1 ⟨"Proctor", fun _ => .ok ()⟩
      "\x7b\"server\": \"general\", \"channel\": \"#general\"\x7d" rfl,
    claim_C5_amended.2.2.2.1 ⟨"Proctor", fun _ => .ok ()⟩⟩

/-! ## Claim about stale completion hooks (C2) -/

/-- Counterexample to C2: the completion hook only receives the
conversation context and `_remove_response_task` guards on the mere
presence of a record for the key, not on its identity.  In a state
where the key `(1, 2)` records task 7, the hook firing for the older
task 5 (no longer the recorded invocation) deletes task 7's record —
the map is changed and the newer run's record is clobbered. -/
theorem claim_C2_counterexample :
    lookupKey (TriggerState.mk [(⟨1, 2⟩, 7)]
      [⟨5, some ⟨1, 2⟩, .done⟩, ⟨7, some ⟨1, 2⟩, .active⟩] 8).responseTasks
      ⟨1, 2⟩ = some 7 ∧
    response_done_callback
      (TriggerState.mk [(⟨1, 2⟩, 7)]
        [⟨5, some ⟨1, 2⟩, .done⟩, ⟨7, some ⟨1, 2⟩, .active⟩] 8) ⟨1, 2⟩ 5 ≠
      TriggerState.mk [(⟨1, 2⟩, 7)]
        [⟨5, some ⟨1, 2⟩, .done⟩, ⟨7, some ⟨1, 2⟩, .active⟩] 8 ∧
    (response_done_callback
      (TriggerState.mk [(⟨1, 2⟩, 7)]
        [⟨5, some ⟨1, 2⟩, .done⟩, ⟨7, some ⟨1, 2⟩, .active⟩] 8) ⟨1, 2⟩
      5).responseTasks = [] :=
  ⟨rfl, by decide, rfl⟩

/-- C2 as amended: a completion hook firing for a key with no recorded
task leaves the state unchanged; a hook firing while any task is
recorded for the key deletes that key's record — whichever run the
recorded task belongs to, since the guard checks presence rather than
identity (the task list itself is never touched). -/
theorem claim_C2_amended (st : TriggerState) (k : ConvKey) (t : TaskId) :
    (lookupKey st.responseTasks k = none →
      response_done_callback st k t = st) ∧
    (∀ t', lookupKey st.responseTasks k = some t' →
      (response_done_callback st k t).responseTasks =
        eraseKey st.responseTasks k ∧
      (response_done_callback st k t).tasks = st.tasks ∧
      (response_done_callback st k t).nextId = st.nextId) := by
  constructor
  · intro h
    simp [response_done_callback, remove_response_task, h]
  · intro t' h
    simp [response_done_callback, remove_response_task, h]

/-- Witness for C2's amended statement: a hook on an empty map is a
no-op; the hook of the counterexample state deletes the recorded entry
of the other task. -/
theorem claim_C2_amended_witness :
    response_done_callback (TriggerState.mk [] [] 0) ⟨1, 2⟩ 5 =
      TriggerState.mk [] [] 0 ∧
    (response_done_callback
      (TriggerState.mk [(⟨1, 2⟩, 7)]
        [⟨5, some ⟨1, 2⟩, .done⟩, ⟨7, some ⟨1, 2⟩, .active⟩] 8) ⟨1, 2⟩
      5).responseTasks =
      eraseKey [(⟨1, 2⟩, 7)] ⟨1, 2⟩ :=
  ⟨(claim_C2_amended (TriggerState.mk [] [] 0) ⟨1, 2⟩ 5).1 rfl,
    ((claim_C2_amended
      (TriggerState.mk [(⟨1, 2⟩, 7)]
        [⟨5, some ⟨1, 2⟩, .done⟩, ⟨7, some ⟨1, 2⟩, .active⟩] 8) ⟨1, 2⟩ 5).2
      7 rfl).1⟩

/-! ## Claim about cancel-before-restart single-flight (C1)

Helper lemmas about the task map and the task list. -/

theorem lookupKey_none_of_not_mem (m : List (ConvKey × TaskId)) (k : ConvKey)
    (h : k ∉ m.map Prod.fst) : lookupKey m k = none := by
  induction m with
  | nil => rfl
  | cons p rest ih =>
    simp only [List.map_cons, List.mem_cons, not_or] at h
    rw [lookupKey, if_neg (Ne.symm h.1)]
    exact ih h.2

theorem lookupKey_setKey_self (m : List (ConvKey × TaskId)) (k : ConvKey)
    (t : TaskId) : lookupKey (setKey m k t) k = some t := by
  induction m with
  | nil => simp [setKey, lookupKey]
  | cons p rest ih =>
    by_cases h : p.1 = k
    · simp [setKey, h, lookupKey]
    · simp [setKey, h, lookupKey, ih]

theorem lookupKey_setKey_ne (m : List (ConvKey × TaskId)) (k k' : ConvKey)
    (t : TaskId) (h : k' ≠ k) :
    lookupKey (setKey m k t) k' = lookupKey m k' := by
  induction m with
  | nil => simp [setKey, lookupKey, Ne.symm h]
  | cons p rest ih =>
    by_cases hp : p.1 = k
    · simp [setKey, hp, lookupKey, Ne.symm h]
    · simp only [setKey, if_neg hp, lookupKey]
      by_cases hk' : p.1 = k'
      · simp [hk']
      · simp [hk', ih]

theorem eraseKey_sublist (m : List (ConvKey × TaskId)) (k : ConvKey) :
    (eraseKey m k).Sublist m := by
  induction m with
  | nil => simp [eraseKey]
  | cons p rest ih =>
    by_cases h : p.1 = k
    · rw [eraseKey, if_pos h]
      exact List.sublist_cons_self p rest
    · rw [eraseKey, if_neg h]
      exact ih.cons₂ p

theorem lookupKey_eraseKey_self (m : List (ConvKey × TaskId)) (k : ConvKey)
    (hnd : (m.map Prod.fst).Nodup) : lookupKey (eraseKey m k) k = none := by
  induction m with
  | nil => rfl
  | cons p rest ih =>
    simp only [List.map_cons, List.nodup_cons] at hnd
    by_cases h : p.1 = k
    · rw [eraseKey, if_pos h]
      exact lookupKey_none_of_not_mem rest k (h ▸ hnd.1)
    · rw [eraseKey, if_neg h, lookupKey, if_neg h]
      exact ih hnd.2

theorem lookupKey_eraseKey_ne (m : List (ConvKey × TaskId)) (k k' : ConvKey)
    (h : k' ≠ k) : lookupKey (eraseKey m k) k' = lookupKey m k' := by
  induction m with
  | nil => rfl
  | cons p rest ih =>
    by_cases hp : p.1 = k
    · rw [eraseKey, if_pos hp, lookupKey, if_neg (by rw [hp]; exact fun he => h he.symm)]
    · rw [eraseKey, if_neg hp, lookupKey, lookupKey]
      by_cases hk' : p.1 = k'
      · simp [hk']
      · simp [hk', ih]

theorem mem_setKey (m : List (ConvKey × TaskId)) (k : ConvKey) (t : TaskId)
    (p : ConvKey × TaskId) (h : p ∈ setKey m k t) : p = (k, t) ∨ p ∈ m := by
  induction m with
  | nil => simpa [setKey] using h
  | cons q rest ih =>
    by_cases hq : q.1 = k
    · rw [setKey, if_pos hq] at h
      rcases List.mem_cons.mp h with h | h
      · exact Or.inl h
      · exact Or.inr (List.mem_cons_of_mem q h)
    · rw [setKey, if_neg hq] at h
      rcases List.mem_cons.mp h with h | h
      · exact Or.inr (h ▸ List.mem_cons_self q rest)
      · rcases ih h with h | h
        · exact Or.inl h
        · exact Or.inr (List.mem_cons_of_mem q h)

theorem mem_keys_setKey (m : List (ConvKey × TaskId)) (k : ConvKey) (t : TaskId)
    (a : ConvKey) : a ∈ (setKey m k t).map Prod.fst ↔ a = k ∨ a ∈ m.map Prod.fst := by
  induction m with
  | nil => simp [setKey]
  | cons q rest ih =>
    by_cases hq : q.1 = k
    · rw [setKey, if_pos hq]
      simp [hq, or_comm]
    · rw [setKey, if_neg hq]
      simp only [List.map_cons, List.mem_cons, ih]
      tauto

theorem keys_setKey_nodup (m : List (ConvKey × TaskId)) (k : ConvKey)
    (t : TaskId) (h : (m.map Prod.fst).Nodup) :
    ((setKey m k t).map Prod.fst).Nodup := by
  induction m with
  | nil => simp [setKey]
  | cons q rest ih =>
    simp only [List.map_cons, List.nodup_cons] at h
    by_cases hq : q.1 = k
    · rw [setKey, if_pos hq]
      simpa [hq ▸ h.1] using h.2
    · rw [setKey, if_neg hq]
      refine List.nodup_cons.mpr ⟨?_, ih h.2⟩
      rw [mem_keys_setKey]
      rintro (he | he)
      · exact hq he
      · exact h.1 he

theorem setDone_map_id (ts : List TaskRec) (t : TaskId) :
    (setDone ts t).map TaskRec.id = ts.map TaskRec.id := by
  induction ts with
  | nil => rfl
  | cons r rest ih =>
    by_cases h : r.id = t <;> simp [setDone, h] at ih ⊢ <;> exact ih

theorem mem_setDone (ts : List TaskRec) (t : TaskId) (r' : TaskRec) :
    r' ∈ setDone ts t ↔
      ∃ r ∈ ts, r' = if r.id = t then { r with status := .done } else r := by
  simp only [setDone, List.mem_map, eq_comm]

theorem statusOf_mem (ts : List TaskRec) (r : TaskRec)
    (hnd : (ts.map TaskRec.id).Nodup) (hr : r ∈ ts) :
    statusOf ts r.id = some r.status := by
  induction ts with
  | nil => cases hr
  | cons x rest ih =>
    simp only [List.map_cons, List.nodup_cons] at hnd
    rcases List.mem_cons.mp hr with h | h
    · subst h
      simp [statusOf]
    · have hx : ¬ x.id = r.id := by
        intro he
        exact hnd.1 (he ▸ List.mem_map_of_mem TaskRec.id h)
      simpa [statusOf, List.find?, hx] using ih hnd.2 h

theorem schedInv_atMostOne (st : TriggerState) (h : SchedInv st) :
    atMostOneActivePerKey st := by
  obtain ⟨-, -, -, -, hact⟩ := h
  intro r₁ h₁ r₂ h₂ ha₁ ha₂ hk₁ hkeq
  cases hk : r₁.key with
  | none => exact absurd hk hk₁
  | some k =>
    have l₁ := hact r₁ h₁ ha₁ k (by simp [hk, Option.toList])
    have l₂ := hact r₂ h₂ ha₂ k (by simp [hkeq ▸ hk, Option.toList])
    exact Option.some_injective _ (l₁.symm.trans l₂)

theorem amo_tasks_eq (s s' : TriggerState) (h : s'.tasks = s.tasks)
    (hamo : atMostOneActivePerKey s) : atMostOneActivePerKey s' := by
  intro r₁ h₁ r₂ h₂
  rw [h] at h₁ h₂
  exact hamo r₁ h₁ r₂ h₂

theorem amo_setDone (s : TriggerState) (t : TaskId)
    (hamo : atMostOneActivePerKey s) :
    atMostOneActivePerKey { s with tasks := setDone s.tasks t } := by
  intro r₁ h₁ r₂ h₂ ha₁ ha₂ hk₁ hkeq
  simp only [mem_setDone] at h₁ h₂
  obtain ⟨q₁, hq₁, he₁⟩ := h₁
  obtain ⟨q₂, hq₂, he₂⟩ := h₂
  by_cases hid₁ : q₁.id = t
  · rw [he₁] at ha₁
    simp [hid₁] at ha₁
  · by_cases hid₂ : q₂.id = t
    · rw [he₂] at ha₂
      simp [hid₂] at ha₂
    · rw [if_neg hid₁] at he₁
      rw [if_neg hid₂] at he₂
      subst he₁
      subst he₂
      exact hamo r₁ hq₁ r₂ hq₂ ha₁ ha₂ hk₁ hkeq

/-- No task of `s` is both active and keyed by `k`: the precondition
under which creating a fresh active task for `k` keeps the single-flight
property. -/
def NoActiveFor (s : TriggerState) (k : ConvKey) : Prop :=
  ∀ r ∈ s.tasks, r.status = .active → r.key ≠ some k

theorem amo_create (s : TriggerState) (k : ConvKey)
    (hamo : atMostOneActivePerKey s) (hno : NoActiveFor s k) :
    atMostOneActivePerKey (applyEv s (.taskCreated s.nextId k)) := by
  intro r₁ h₁ r₂ h₂ ha₁ ha₂ hk₁ hkeq
  simp only [applyEv, List.mem_append, List.mem_singleton] at h₁ h₂
  rcases h₁ with h₁ | h₁ <;> rcases h₂ with h₂ | h₂
  · exact hamo r₁ h₁ r₂ h₂ ha₁ ha₂ hk₁ hkeq
  · subst h₂
    exact absurd hkeq (hno r₁ h₁ ha₁)
  · subst h₁
    exact absurd hkeq.symm (hno r₂ h₂ ha₂)
  · subst h₁
    subst h₂
    rfl

theorem inv_create_record (s : TriggerState) (k : ConvKey)
    (hinv : SchedInv s) (hno : NoActiveFor s k) :
    SchedInv (applyEv (applyEv s (.taskCreated s.nextId k))
      (.taskRecorded k s.nextId)) := by
  obtain ⟨hnd, hlt, hknd, hrec, hact⟩ := hinv
  refine ⟨?_, ?_, ?_, ?_, ?_⟩
  · simp only [applyEv, List.map_append]
    rw [List.nodup_append]
    refine ⟨hnd, by simp, ?_⟩
    intro a ha
    simp only [List.map_cons, List.map_nil, List.mem_singleton]
    intro hb
    rw [hb] at ha
    obtain ⟨r, hr, hid⟩ := List.mem_map.mp ha
    exact absurd (hid ▸ hlt r hr) (lt_irrefl _)
  · intro r hr
    simp only [applyEv, List.mem_append, List.mem_singleton] at hr
    simp only [applyEv]
    rcases hr with hr | hr
    · exact Nat.lt_succ_of_lt (hlt r hr)
    · rw [hr]
      exact Nat.lt_succ_self _
  · simpa only [applyEv] using keys_setKey_nodup _ k s.nextId hknd
  · intro p hp
    simp only [applyEv] at hp ⊢
    rcases mem_setKey _ _ _ p hp with hpe | hpm
    · exact ⟨⟨s.nextId, some k, .active⟩, by simp, by rw [hpe], by rw [hpe]⟩
    · obtain ⟨r, hr, hid, hkey⟩ := hrec p hpm
      exact ⟨r, List.mem_append_left _ hr, hid, hkey⟩
  · intro r hr hra k' hk'
    simp only [applyEv, List.mem_append, List.mem_singleton] at hr
    simp only [applyEv]
    simp only [Option.mem_toList, Option.mem_def] at hk'
    rcases hr with hr | hr
    · have hne : k' ≠ k := by
        intro he
        exact hno r hr hra (he ▸ hk')
      rw [lookupKey_setKey_ne _ _ _ _ hne]
      exact hact r hr hra k' (by simp [Option.mem_toList, Option.mem_def, hk'])
    · rw [hr] at hk' ⊢
      simp only at hk'
      cases hk'
      simpa using lookupKey_setKey_self _ k s.nextId

/-- One `read_message` call considered in isolation from a well-formed
state: its final state is the fold of its effect trace; in the
cancel scenario the trace confirms the prior task's termination
strictly before the replacement is created and recorded; every prefix
of the trace keeps at most one active run per key; and `SchedInv` is
preserved.  This is deliberately conditional — it holds for serialized
calls from `SchedInv` states only.  The program does not guarantee
either condition: a stale completion hook interleaved between calls
drives the state outside `SchedInv` (an active task with no map
entry), from which a further call starts a second active run for the
key — see `claim_C1_counterexample`. -/
theorem read_message_serialized_single_flight (agentName : String) (st : TriggerState)
    (k : ConvKey) (message : MessageSM) (hinv : SchedInv st) :
    ((read_message agentName st k message).1 =
      (read_message agentName st k message).2.foldl applyEv st) ∧
    (∀ t, should_respond agentName message = true →
      lookupKey st.responseTasks k = some t →
      statusOf st.tasks t = some .active →
      (read_message agentName st k message).2 =
        [.cancelRequested t, .terminated t, .hookFired k t, .awaitConfirmed t,
         .recordRemoved k, .taskCreated st.nextId k,
         .taskRecorded k st.nextId]) ∧
    (∀ n, atMostOneActivePerKey
      (((read_message agentName st k message).2.take n).foldl applyEv st)) ∧
    SchedInv (read_message agentName st k message).1 := by
  obtain ⟨hnd, hlt, hknd, hrec, hact⟩ := hinv
  have hinv' : SchedInv st := ⟨hnd, hlt, hknd, hrec, hact⟩
  have hamo : atMostOneActivePerKey st := schedInv_atMostOne st hinv'
  refine ⟨rfl, ?_, ?_, ?_⟩
  · -- the effect trace of the cancel-then-restart scenario
    intro t hresp hl hs
    simp [read_message, read_message_events, hresp, hl, hs]
  · -- single-flight at every prefix of the effect trace
    intro n
    by_cases hresp : should_respond agentName message = true
    · cases hl : lookupKey st.responseTasks k with
      | none =>
        have hno : NoActiveFor st k := by
          intro r hr hra hkey
          have := hact r hr hra k (by simp [hkey, Option.toList])
          rw [hl] at this
          cases this
        have hevs : (read_message agentName st k message).2 =
            [.taskCreated st.nextId k, .taskRecorded k st.nextId] := by
          simp [read_message, read_message_events, hresp, hl]
        rw [hevs]
        rcases n with - | n
        · exact hamo
        rcases n with - | n
        · simp only [List.take_succ_cons, List.take_zero, List.foldl_cons,
            List.foldl_nil]
          exact amo_create st k hamo hno
        · simp only [List.take_succ_cons, List.take_nil, List.foldl_cons,
            List.foldl_nil]
          exact amo_tasks_eq _ (applyEv st (.taskCreated st.nextId k)) rfl
            (amo_create st k hamo hno)
      | some t =>
        by_cases hs : statusOf st.tasks t = some .active
        · -- prior active task for the key
          have hno3 : NoActiveFor
              ⟨eraseKey st.responseTasks k, setDone st.tasks t, st.nextId⟩ k := by
            intro r hr hra hkey
            obtain ⟨q, hq, he⟩ := (mem_setDone _ _ _).mp hr
            by_cases hqt : q.id = t
            · rw [he, if_pos hqt] at hra
              simp at hra
            · rw [if_neg hqt] at he
              subst he
              have := hact r hq hra k (by simp [hkey, Option.toList])
              rw [hl] at this
              exact hqt (by simpa using this.symm)
          have hamo3 : atMostOneActivePerKey
              ⟨eraseKey st.responseTasks k, setDone st.tasks t, st.nextId⟩ :=
            amo_tasks_eq _ { st with tasks := setDone st.tasks t } rfl
              (amo_setDone st t hamo)
          have e3 : applyEv { st with tasks := setDone st.tasks t }
              (.hookFired k t) =
              ⟨eraseKey st.responseTasks k, setDone st.tasks t, st.nextId⟩ := by
            simp [applyEv, response_done_callback, remove_response_task, hl]
          have e5 : applyEv
              ⟨eraseKey st.responseTasks k, setDone st.tasks t, st.nextId⟩
              (.recordRemoved k) =
              ⟨eraseKey st.responseTasks k, setDone st.tasks t, st.nextId⟩ := by
            simp [applyEv, remove_response_task,
              lookupKey_eraseKey_self st.responseTasks k hknd]
          have hevs : (read_message agentName st k message).2 =
              [.cancelRequested t, .terminated t, .hookFired k t,
               .awaitConfirmed t, .recordRemoved k, .taskCreated st.nextId k,
               .taskRecorded k st.nextId] := by
            simp [read_message, read_message_events, hresp, hl, hs]
          rw [hevs]
          rcases n with - | n
          · exact hamo
          rcases n with - | n
          · simp only [List.take_succ_cons, List.take_zero, List.foldl_cons,
              List.foldl_nil]
            exact hamo
          rcases n with - | n
          · simp only [List.take_succ_cons, List.take_zero, List.foldl_cons,
              List.foldl_nil]
            exact amo_setDone st t hamo
          rcases n with - | n
          · simp only [List.take_succ_cons, List.take_zero, List.foldl_cons,
              List.foldl_nil]
            rw [show applyEv (applyEv st (.cancelRequested t)) (.terminated t) =
              { st with tasks := setDone st.tasks t } from rfl, e3]
            exact hamo3
          rcases n with - | n
          · simp only [List.take_succ_cons, List.take_zero, List.foldl_cons,
              List.foldl_nil]
            rw [show applyEv (applyEv st (.cancelRequested t)) (.terminated t) =
              { st with tasks := setDone st.tasks t } from rfl, e3]
            exact hamo3
          rcases n with - | n
          · simp only [List.take_succ_cons, List.take_zero, List.foldl_cons,
              List.foldl_nil]
            rw [show applyEv (applyEv st (.cancelRequested t)) (.terminated t) =
              { st with tasks := setDone st.tasks t } from rfl, e3,
              show applyEv
                ⟨eraseKey st.responseTasks k, setDone st.tasks t, st.nextId⟩
                (.awaitConfirmed t) =
                ⟨eraseKey st.responseTasks k, setDone st.tasks t, st.nextId⟩
                from rfl, e5]
            exact hamo3
          rcases n with - | n
          · simp only [List.take_succ_cons, List.take_zero, List.foldl_cons,
              List.foldl_nil]
            rw [show applyEv (applyEv st (.cancelRequested t)) (.terminated t) =
              { st with tasks := setDone st.tasks t } from rfl, e3,
              show applyEv
                ⟨eraseKey st.responseTasks k, setDone st.tasks t, st.nextId⟩
                (.awaitConfirmed t) =
                ⟨eraseKey st.responseTasks k, setDone st.tasks t, st.nextId⟩
                from rfl, e5]
            exact amo_create _ k hamo3 hno3
          · simp only [List.take_succ_cons, List.take_nil, List.foldl_cons,
              List.foldl_nil]
            rw [show applyEv (applyEv st (.cancelRequested t)) (.terminated t) =
              { st with tasks := setDone st.tasks t } from rfl, e3,
              show applyEv
                ⟨eraseKey st.responseTasks k, setDone st.tasks t, st.nextId⟩
                (.awaitConfirmed t) =
                ⟨eraseKey st.responseTasks k, setDone st.tasks t, st.nextId⟩
                from rfl, e5]
            exact amo_tasks_eq _
              (applyEv ⟨eraseKey st.responseTasks k, setDone st.tasks t,
                st.nextId⟩ (.taskCreated st.nextId k)) rfl
              (amo_create _ k hamo3 hno3)
        · -- recorded task already done
          have hno : NoActiveFor st k := by
            intro r hr hra hkey
            have := hact r hr hra k (by simp [hkey, Option.toList])
            rw [hl] at this
            have hid : t = r.id := by simpa using this
            rw [hid] at hs
            exact hs (by rw [statusOf_mem st.tasks r hnd hr, hra])
          have hevs : (read_message agentName st k message).2 =
              [.taskCreated st.nextId k, .taskRecorded k st.nextId] := by
            simp [read_message, read_message_events, hresp, hl, hs]
          rw [hevs]
          rcases n with - | n
          · exact hamo
          rcases n with - | n
          · simp only [List.take_succ_cons, List.take_zero, List.foldl_cons,
              List.foldl_nil]
            exact amo_create st k hamo hno
          · simp only [List.take_succ_cons, List.take_nil, List.foldl_cons,
              List.foldl_nil]
            exact amo_tasks_eq _ (applyEv st (.taskCreated st.nextId k)) rfl
              (amo_create st k hamo hno)
    · have hevs : (read_message agentName st k message).2 = [] := by
        simp [read_message, read_message_events, hresp]
      rw [hevs]
      simpa using hamo
  · -- the scheduler invariant is preserved
    by_cases hresp : should_respond agentName message = true
    · cases hl : lookupKey st.responseTasks k with
      | none =>
        have hno : NoActiveFor st k := by
          intro r hr hra hkey
          have := hact r hr hra k (by simp [hkey, Option.toList])
          rw [hl] at this
          cases this
        have hfin : (read_message agentName st k message).1 =
            applyEv (applyEv st (.taskCreated st.nextId k))
              (.taskRecorded k st.nextId) := by
          rw [show (read_message agentName st k message).1 =
            (read_message agentName st k message).2.foldl applyEv st from rfl,
            show (read_message agentName st k message).2 =
              [.taskCreated st.nextId k, .taskRecorded k st.nextId] by
              simp [read_message, read_message_events, hresp, hl]]
          simp only [List.foldl_cons, List.foldl_nil]
        rw [hfin]
        exact inv_create_record st k hinv' hno
      | some t =>
        by_cases hs : statusOf st.tasks t = some .active
        · have hinv3 : SchedInv
              ⟨eraseKey st.responseTasks k, setDone st.tasks t, st.nextId⟩ := by
            refine ⟨?_, ?_, ?_, ?_, ?_⟩
            · show ((setDone st.tasks t).map TaskRec.id).Nodup
              rw [setDone_map_id]
              exact hnd
            · intro r hr
              obtain ⟨q, hq, he⟩ := (mem_setDone _ _ _).mp hr
              have hid : r.id = q.id := by
                rw [he]
                by_cases hqt : q.id = t <;> simp [hqt]
              show r.id < st.nextId
              rw [hid]
              exact hlt q hq
            · exact List.Nodup.sublist
                ((eraseKey_sublist st.responseTasks k).map Prod.fst) hknd
            · intro p hp
              obtain ⟨q, hq, hid, hkey⟩ :=
                hrec p ((eraseKey_sublist st.responseTasks k).subset hp)
              refine ⟨if q.id = t then { q with status := .done } else q,
                (mem_setDone _ _ _).mpr ⟨q, hq, rfl⟩, ?_, ?_⟩
              · by_cases hqt : q.id = t
                · rw [if_pos hqt]
                  exact hid
                · rw [if_neg hqt]
                  exact hid
              · by_cases hqt : q.id = t
                · rw [if_pos hqt]
                  exact hkey
                · rw [if_neg hqt]
                  exact hkey
            · intro r hr hra k' hk'
              obtain ⟨q, hq, he⟩ := (mem_setDone _ _ _).mp hr
              by_cases hqt : q.id = t
              · rw [he, if_pos hqt] at hra
                simp at hra
              · rw [if_neg hqt] at he
                subst he
                simp only [Option.mem_toList, Option.mem_def] at hk'
                have hne : k' ≠ k := by
                  intro hEq
                  subst hEq
                  have := hact r hq hra k' (by simp [hk', Option.toList])
                  rw [hl] at this
                  exact hqt (by simpa using this.symm)
                show lookupKey (eraseKey st.responseTasks k) k' = some r.id
                rw [lookupKey_eraseKey_ne _ _ _ hne]
                exact hact r hq hra k' (by simp [hk', Option.toList])
          have hno3 : NoActiveFor
              ⟨eraseKey st.responseTasks k, setDone st.tasks t, st.nextId⟩ k := by
            intro r hr hra hkey
            obtain ⟨q, hq, he⟩ := (mem_setDone _ _ _).mp hr
            by_cases hqt : q.id = t
            · rw [he, if_pos hqt] at hra
              simp at hra
            · rw [if_neg hqt] at he
              subst he
              have := hact r hq hra k (by simp [hkey, Option.toList])
              rw [hl] at this
              exact hqt (by simpa using this.symm)
          have e3 : applyEv { st with tasks := setDone st.tasks t }
              (.hookFired k t) =
              ⟨eraseKey st.responseTasks k, setDone st.tasks t, st.nextId⟩ := by
            simp [applyEv, response_done_callback, remove_response_task, hl]
          have e5 : applyEv
              ⟨eraseKey st.responseTasks k, setDone st.tasks t, st.nextId⟩
              (.recordRemoved k) =
              ⟨eraseKey st.responseTasks k, setDone st.tasks t, st.nextId⟩ := by
            simp [applyEv, remove_response_task,
              lookupKey_eraseKey_self st.responseTasks k hknd]
          have hfin : (read_message agentName st k message).1 =
              applyEv (applyEv
                ⟨eraseKey st.responseTasks k, setDone st.tasks t, st.nextId⟩
                (.taskCreated st.nextId k)) (.taskRecorded k st.nextId) := by
            rw [show (read_message agentName st k message).1 =
              (read_message agentName st k message).2.foldl applyEv st from rfl,
              show (read_message agentName st k message).2 =
                [.cancelRequested t, .terminated t, .hookFired k t,
                 .awaitConfirmed t, .recordRemoved k, .taskCreated st.nextId k,
                 .taskRecorded k st.nextId] by
                simp [read_message, read_message_events, hresp, hl, hs]]
            simp only [List.foldl_cons, List.foldl_nil]
            rw [show applyEv (applyEv st (.cancelRequested t)) (.terminated t) =
              { st with tasks := setDone st.tasks t } from rfl, e3,
              show applyEv
                ⟨eraseKey st.responseTasks k, setDone st.tasks t, st.nextId⟩
                (.awaitConfirmed t) =
                ⟨eraseKey st.responseTasks k, setDone st.tasks t, st.nextId⟩
                from rfl, e5]
          rw [hfin]
          exact inv_create_record _ k hinv3 hno3
        · have hno : NoActiveFor st k := by
            intro r hr hra hkey
            have := hact r hr hra k (by simp [hkey, Option.toList])
            rw [hl] at this
            have hid : t = r.id := by simpa using this
            rw [hid] at hs
            exact hs (by rw [statusOf_mem st.tasks r hnd hr, hra])
          have hfin : (read_message agentName st k message).1 =
              applyEv (applyEv st (.taskCreated st.nextId k))
                (.taskRecorded k st.nextId) := by
            rw [show (read_message agentName st k message).1 =
              (read_message agentName st k message).2.foldl applyEv st from rfl,
              show (read_message agentName st k message).2 =
                [.taskCreated st.nextId k, .taskRecorded k st.nextId] by
                simp [read_message, read_message_events, hresp, hl, hs]]
            simp only [List.foldl_cons, List.foldl_nil]
          rw [hfin]
          exact inv_create_record st k hinv' hno
    · have hfin : (read_message agentName st k message).1 = st := by
        rw [show (read_message agentName st k message).1 =
          (read_message agentName st k message).2.foldl applyEv st from rfl,
          show (read_message agentName st k message).2 = [] by
            simp [read_message, read_message_events, hresp]]
        rfl
      rw [hfin]
      exact hinv'

/-- Counterexample to C1: an instant with two active runs for the same
key is reachable, so the claimed consequence ("at no instant do two
active runs exist for the same key") is false of the program.  The
schedule, with `k = (1, 2)`: the run recorded for `k` (task 5)
completes naturally just before the event loop starts the handler for
Bob's new eligible message, so task 5 is `done()` but its completion
hook — queued by the loop with `call_soon` — has not yet run.  The
handler (`read_message`, synchronous on this path) sees
`task.done()`, skips the cancel branch, and creates and records the
replacement, task 6.  Task 5's stale hook then runs and — guarding
only on presence, exactly the behaviour `claim_C2_counterexample`
exhibits — deletes task 6's record while task 6 still runs.  Carol's
next eligible message finds no record for `k` and starts task 7: tasks
6 and 7 are then both active for `k`.  Each step is one of the embedded
primitives composed in a schedule the event loop permits. -/
theorem claim_C1_counterexample :
    (read_message "Proctor"
      (response_done_callback
        (read_message "Proctor"
          ⟨[(⟨1, 2⟩, 5)], [⟨5, some ⟨1, 2⟩, .done⟩], 6⟩ ⟨1, 2⟩
          (messageSMInit "hello" "Bob" 0 [] [])).1
        ⟨1, 2⟩ 5)
      ⟨1, 2⟩ (messageSMInit "hello again" "Carol" 0 [] [])).1 =
      ⟨[(⟨1, 2⟩, 7)],
       [⟨5, some ⟨1, 2⟩, .done⟩, ⟨6, some ⟨1, 2⟩, .active⟩,
        ⟨7, some ⟨1, 2⟩, .active⟩], 8⟩ ∧
    ¬ atMostOneActivePerKey
      ⟨[(⟨1, 2⟩, 7)],
       [⟨5, some ⟨1, 2⟩, .done⟩, ⟨6, some ⟨1, 2⟩, .active⟩,
        ⟨7, some ⟨1, 2⟩, .active⟩], 8⟩ :=
  ⟨rfl, by unfold atMostOneActivePerKey; decide⟩

/-- C1 as amended: within one `read_message` call, when an eligible
message finds the task recorded for its key not done, the call cancels
that task and awaits its confirmed termination (swallowing the
`CancelledError`) and removes its record strictly before creating and
recording the replacement — the per-call ordering the claim describes.
The claimed consequence does not hold: as `claim_C1_counterexample`
shows, a stale completion hook interleaved between calls can
deregister a newer run, after which a further eligible message starts
a second active run for the same key. -/
theorem claim_C1_amended (agentName : String) (st : TriggerState)
    (k : ConvKey) (message : MessageSM) (t : TaskId)
    (hresp : should_respond agentName message = true)
    (hl : lookupKey st.responseTasks k = some t)
    (hs : statusOf st.tasks t = some .active) :
    (read_message agentName st k message).2 =
      [.cancelRequested t, .terminated t, .hookFired k t, .awaitConfirmed t,
       .recordRemoved k, .taskCreated st.nextId k,
       .taskRecorded k st.nextId] ∧
    (read_message agentName st k message).1 =
      (read_message agentName st k message).2.foldl applyEv st :=
  ⟨by simp [read_message, read_message_events, hresp, hl, hs], rfl⟩

/-- Witness for C1's amended statement: key `(1, 2)` records the
still-active task 3 when Bob's eligible message arrives; the trace
cancels task 3 and confirms its termination strictly before creating
and recording task 4. -/
theorem claim_C1_amended_witness :
    (read_message "Proctor" ⟨[(⟨1, 2⟩, 3)], [⟨3, some ⟨1, 2⟩, .active⟩], 4⟩
      ⟨1, 2⟩ (messageSMInit "hello" "Bob" 0 [] [])).2 =
      [.cancelRequested 3, .terminated 3, .hookFired ⟨1, 2⟩ 3,
       .awaitConfirmed 3, .recordRemoved ⟨1, 2⟩, .taskCreated 4 ⟨1, 2⟩,
       .taskRecorded ⟨1, 2⟩ 4] :=
  (claim_C1_amended "Proctor"
    ⟨[(⟨1, 2⟩, 3)], [⟨3, some ⟨1, 2⟩, .active⟩], 4⟩ ⟨1, 2⟩
    (messageSMInit "hello" "Bob" 0 [] []) 3 rfl rfl rfl).1

end Vercade
